import Mathlib

/-!
Shallow embedding of `src/stest.rs` (rdmenu's `stest`): a file-predicate
filter analogous to `test`(1).  Filesystem facts that the Rust code obtains
through syscalls (`metadata`, `symlink_metadata`, `read_dir`, `access`,
`to_str`, `file_name`) are carried on each entry as fields; fallible calls
become `Option`, panics (`unwrap`, the stdin `panic!`) become `none`, and
`Result<_, io::Error>` becomes `Except IOError _`.
-/

namespace Stest

/-- `libc::S_IFMT` (0o170000). -/
def S_IFMT : Nat := 61440
/-- `libc::S_IFBLK` (0o060000). -/
def S_IFBLK : Nat := 24576
/-- `libc::S_IFCHR` (0o020000). -/
def S_IFCHR : Nat := 8192
/-- `libc::S_IFDIR` (0o040000). -/
def S_IFDIR : Nat := 16384
/-- `libc::S_IFREG` (0o100000). -/
def S_IFREG : Nat := 32768
/-- `libc::S_IFIFO` (0o010000). -/
def S_IFIFO : Nat := 4096
/-- `libc::S_IFLNK` (0o120000). -/
def S_IFLNK : Nat := 40960
/-- `libc::S_ISUID` (0o4000). -/
def S_ISUID : Nat := 2048
/-- `libc::S_ISGID` (0o2000). -/
def S_ISGID : Nat := 1024

/-- A Rust `&str`, modelled as its character sequence. -/
abbrev Str : Type := List Char

/-- Rust's `str::starts_with` with a `char` pattern, as in
`file_name.starts_with('.')`: true iff the first character is the given
one (false on the empty string). -/
def starts_with (s : Str) (c : Char) : Bool :=
  s.head? == some c

/-- `std::fs::Metadata`, restricted to the fields `stest.rs` reads:
`st_mode()`, `len()`, and `modified()` (the latter is a `Result`, hence
`Option`). -/
structure FileMeta where
  st_mode : Nat
  len : Nat
  modified : Option Nat
deriving Repr, DecidableEq

/-- `fn s_isval(s_ifval: u32, file: &Metadata) -> bool`. -/
def s_isval (s_ifval : Nat) (file : FileMeta) : Bool :=
  (file.st_mode &&& S_IFMT) == s_ifval

/-- `fn s_isset(s_isflg: i32, file: &Metadata) -> bool`. -/
def s_isset (s_isflg : Nat) (file : FileMeta) : Bool :=
  (file.st_mode &&& s_isflg) != 0

/-- A `PathBuf` together with the filesystem facts `stest.rs` queries of it:
`to_str()` (full path string, `None` on invalid UTF-8), `file_name()`
composed with `to_str()` (final path component), `metadata()` (follows
symlinks), `symlink_metadata()` (does not follow), and the results of the
three `libc::access` checks. -/
structure Entry where
  toStr : Option Str
  fileName : Option Str
  metadata : Option FileMeta
  symlinkMeta : Option FileMeta
  accessR : Bool
  accessW : Bool
  accessX : Bool
deriving Repr, DecidableEq

/-- `fn is_symlink(path: &PathBuf) -> bool`: `symlink_metadata().ok()
.filter(|link| link.file_type().is_symlink()).is_some()`. -/
def is_symlink (e : Entry) : Bool :=
  (e.symlinkMeta.filter (fun link => s_isval S_IFLNK link)).isSome

/-- `path.to_str().and_then(|path| CString::new(path).ok())`:
`CString::new` fails exactly on an interior NUL byte. -/
def cString (e : Entry) : Option Str :=
  e.toStr.bind (fun s => if s.contains (Char.ofNat 0) then none else some s)

/-- An input path (`PathBuf` in `Opt::files`): the entry's own facts plus
the result of `read_dir()` (children already mapped through
`path_result.ok()` and `DirEntry::path()`, as `test_dir` does). -/
structure PathItem where
  entry : Entry
  readDir : Option (List Entry)
deriving Repr, DecidableEq

/-- `struct Opt`: the parsed command-line configuration.  The two optional
reference paths carry the filesystem facts of the referenced file. -/
structure Opt where
  hidden : Bool
  block_special : Bool
  char_special : Bool
  directory : Bool
  regular : Bool
  set_gid_set : Bool
  symbolic_link : Bool
  dir_contents : Bool
  newer_than : Option Entry
  older_than : Option Entry
  fifo : Bool
  quiet : Bool
  readable : Bool
  not_empty : Bool
  set_uid_set : Bool
  invert : Bool
  writable : Bool
  executable : Bool
  files : List PathItem
deriving Repr, DecidableEq

/-- `fn reduce(acc: bool, x: bool) -> bool { acc || x }`. -/
def reduce (acc : Bool) (x : Bool) : Bool := acc || x

/-- `struct Stest<'t> { opt: &'t Opt, compare: Option<SystemTime> }`. -/
structure St where
  opt : Opt
  compare : Option Nat
deriving Repr, DecidableEq

/-- Lazy `&&` over possibly-panicking booleans: `none` models a panic, and
a `false` left operand short-circuits (the right side is never evaluated),
exactly as Rust's `&&`. -/
def andO (a : Option Bool) (b : Unit → Option Bool) : Option Bool :=
  match a with
  | none => none
  | some false => some false
  | some true => b ()

/-- The `!flag || expr` pattern of each conjunct in `Stest::test`, with
Rust's lazy `||`: `expr` (which may panic) is evaluated only when `flag`
is set. -/
def guardO (flag : Bool) (cond : Unit → Option Bool) : Option Bool :=
  if flag then cond () else some true

/-- Conjunct 8 of `Stest::test`:
`!self.opt.newer_than.is_some() || (self.compare.unwrap() < file.modified().unwrap())`. -/
def newerConj (st : St) (file : FileMeta) : Option Bool :=
  guardO st.opt.newer_than.isSome (fun _ =>
    match st.compare with
    | none => none
    | some c =>
        match file.modified with
        | none => none
        | some m => some (decide (c < m)))

/-- Conjunct 9 of `Stest::test`:
`!self.opt.older_than.is_some() || (file.modified().unwrap() < self.compare.unwrap())`. -/
def olderConj (st : St) (file : FileMeta) : Option Bool :=
  guardO st.opt.older_than.isSome (fun _ =>
    match file.modified with
    | none => none
    | some m =>
        match st.compare with
        | none => none
        | some c => some (decide (m < c)))

/-- Conjuncts 1-7 of `Stest::test` (all panic-free): hidden name,
block-special, char-special, directory, regular, set-gid bit, symlink. -/
def conjA (st : St) (file : FileMeta) (e : Entry) (file_name : Str) : Bool :=
  (st.opt.hidden || !(starts_with file_name (Char.ofNat 46))) &&
  (!st.opt.block_special || s_isval S_IFBLK file) &&
  (!st.opt.char_special || s_isval S_IFCHR file) &&
  (!st.opt.directory || s_isval S_IFDIR file) &&
  (!st.opt.regular || s_isval S_IFREG file) &&
  (!st.opt.set_gid_set || s_isset S_ISGID file) &&
  (!st.opt.symbolic_link || is_symlink e)

/-- Conjuncts 10-15 of `Stest::test` (all panic-free): fifo, readable,
not-empty, the `S_ISUID` bit check — which the source gates on
`self.opt.set_gid_set`, not `set_uid_set` — writable, executable. -/
def conjB (st : St) (file : FileMeta) (e : Entry) : Bool :=
  (!st.opt.fifo || s_isval S_IFIFO file) &&
  (!st.opt.readable || e.accessR) &&
  (!st.opt.not_empty || decide (0 < file.len)) &&
  (!st.opt.set_gid_set || s_isset S_ISUID file) &&
  (!st.opt.writable || e.accessW) &&
  (!st.opt.executable || e.accessX)

/-- The pre-inversion body of `Stest::test`: `result` stays `false` when
`path.metadata()` fails or the `CString` cannot be formed; otherwise the
fifteen-conjunct lazy `&&` chain, in source order. -/
def testPre (st : St) (e : Entry) (file_name : Str) : Option Bool :=
  match e.metadata, cString e with
  | some file, some _ =>
      andO (some (conjA st file e file_name)) (fun _ =>
      andO (newerConj st file) (fun _ =>
      andO (olderConj st file) (fun _ =>
      some (conjB st file e))))
  | _, _ => some false

/-- `fn test(&self, path: &PathBuf, file_name: &str) -> bool`: the
pre-inversion conjunction followed by `result ^= self.opt.invert`.
(The `println!` side effect carries no further information for the
verdict and is omitted.) -/
def test (st : St) (e : Entry) (file_name : Str) : Option Bool :=
  (testPre st e file_name).map (fun result => Bool.xor result st.opt.invert)

/-- The per-input closure of `run_opts` in normal mode:
`path.to_str().and_then(|file_name| Some(self.test(&path, file_name))).unwrap_or(false)`. -/
def fileVerdict (st : St) (e : Entry) : Option Bool :=
  match e.toStr with
  | some file_name => test st e file_name
  | none => some false

/-- The per-child closure of `test_dir`:
`path.file_name().and_then(|os_str| os_str.to_str())
.and_then(|file_name| Some(self.test(&path, file_name))).unwrap_or(false)`. -/
def dirChildVerdict (st : St) (e : Entry) : Option Bool :=
  match e.fileName with
  | some file_name => test st e file_name
  | none => some false

/-- Rust's `iter.map(f).fold(acc, reduce)`: each element's verdict is
computed in order (a panic — `none` — aborts), and the accumulator is
OR-folded with `reduce`; no element is skipped. -/
def foldVerdicts (f : α → Option Bool) : List α → Bool → Option Bool
  | [], acc => some acc
  | x :: xs, acc =>
      match f x with
      | none => none
      | some v => foldVerdicts f xs (reduce acc v)

/-- `fn test_dir(&self, dir_path: &PathBuf) -> bool`: fold the children's
verdicts when `read_dir` succeeds, else `false`. -/
def test_dir (st : St) (item : PathItem) : Option Bool :=
  match item.readDir with
  | some children => foldVerdicts (fun e => dirChildVerdict st e) children false
  | none => some false

/-- `fn run_opts(&self) -> bool`: branch on `dir_contents`, then
map-and-fold over `opt.files` with `reduce`, seeded `false`. -/
def run_opts (st : St) : Option Bool :=
  if st.opt.dir_contents then
    foldVerdicts (fun item => test_dir st item) st.opt.files false
  else
    foldVerdicts (fun item => fileVerdict st item.entry) st.opt.files false

/-- `fn run(&self) -> bool` on `Stest`: panic (`none`) on the unsupported
stdin path, else `run_opts`. -/
def runStest (st : St) : Option Bool :=
  if st.opt.files.isEmpty then none
  else run_opts st

/-- The `io::Error` cases `pub fn run` can propagate: the reference path's
`metadata()?` or `modified()?` failing. -/
inductive IOError where
  | metadataErr
  | modifiedErr
deriving Repr, DecidableEq

/-- `file_path.metadata()?.modified()?` for a reference path. -/
def refModified (p : Entry) : Except IOError Nat :=
  match p.metadata with
  | none => Except.error IOError.metadataErr
  | some m =>
      match m.modified with
      | none => Except.error IOError.modifiedErr
      | some t => Except.ok t

/-- The `compare` initializer of `pub fn run`: `newer_than` first,
else `older_than`, else `None`. -/
def resolveCompare (opt : Opt) : Except IOError (Option Nat) :=
  match opt.newer_than with
  | some p => (refModified p).map some
  | none =>
      match opt.older_than with
      | some p => (refModified p).map some
      | none => Except.ok none

/-- `pub fn run(opt: &Opt) -> Result<bool, std::io::Error>`: resolve the
reference time (propagating its IO error), build the `Stest`, run it.
The inner `Option` carries the panic possibility of `stest.run()`. -/
def run (opt : Opt) : Except IOError (Option Bool) :=
  (resolveCompare opt).map (fun compare => runStest ⟨opt, compare⟩)

/-! Helper lemmas and concrete fixtures -/

/-- Spec-side helper: the list of per-candidate verdicts, `none` when any
candidate's evaluation panics. -/
def collect (f : α → Option Bool) : List α → Option (List Bool)
  | [] => some []
  | x :: xs =>
      match f x, collect f xs with
      | some v, some vs => some (v :: vs)
      | _, _ => none

theorem foldVerdicts_collect (f : α → Option Bool) (xs : List α) (acc : Bool) :
    foldVerdicts f xs acc = (collect f xs).map (fun vs => vs.foldl reduce acc) := by
  induction xs generalizing acc with
  | nil => rfl
  | cons x xs ih =>
    simp only [foldVerdicts, collect]
    cases hf : f x with
    | none => rfl
    | some v =>
      cases hc : collect f xs <;> simp [ih, hc, List.foldl]

theorem foldl_reduce_any (vs : List Bool) (acc : Bool) :
    vs.foldl reduce acc = (acc || vs.any id) := by
  induction vs generalizing acc with
  | nil => simp
  | cons v vs ih => simp [List.foldl, reduce, ih, Bool.or_assoc]

theorem collect_length (f : α → Option Bool) (xs : List α) (vs : List Bool)
    (h : collect f xs = some vs) : vs.length = xs.length := by
  induction xs generalizing vs with
  | nil =>
    simp only [collect] at h
    cases h
    rfl
  | cons x xs ih =>
    simp only [collect] at h
    cases hf : f x <;> rw [hf] at h
    · cases h
    · cases hc : collect f xs <;> rw [hc] at h
      · cases h
      · cases h
        simp [ih _ hc]

/-- With neither time test enabled, the conjunction never panics and ignores
`compare`: it is the plain boolean conjunction of the pure conjuncts. -/
theorem testPre_no_time (st : St) (e : Entry) (file_name : Str)
    (hn : st.opt.newer_than = none) (ho : st.opt.older_than = none) :
    testPre st e file_name =
      match e.metadata, cString e with
      | some file, some _ => some (conjA st file e file_name && conjB st file e)
      | _, _ => some false := by
  unfold testPre
  rcases hm : e.metadata with _ | file <;> rcases hc : cString e with _ | c <;>
    simp only [hm, hc]
  cases hA : conjA st file e file_name <;>
    simp [newerConj, olderConj, guardO, hn, ho, andO, hA]

/-- `testPre` reads no field of the configuration other than the test flags:
in particular it is invariant under changing `invert`. -/
theorem testPre_invert_invariant (opt : Opt) (b : Bool) (compare : Option Nat)
    (e : Entry) (file_name : Str) :
    testPre ⟨{ opt with invert := b }, compare⟩ e file_name
      = testPre ⟨opt, compare⟩ e file_name := rfl

/-- A baseline configuration: every flag off, no reference paths, no files. -/
def optBase : Opt :=
  ⟨false, false, false, false, false, false, false, false, none, none,
   false, false, false, false, false, false, false, false, []⟩

/-- A plain regular file named `.x` (mode `S_IFREG`, length 1). -/
def entryHidden : Entry :=
  ⟨some ['.', 'x'], some ['.', 'x'], some ⟨S_IFREG, 1, some 0⟩, none,
   true, true, true⟩

/-- A regular file whose path string is `d/.b` and whose final component is
`.b`. -/
def entryNested : Entry :=
  ⟨some ['d', '/', '.', 'b'], some ['.', 'b'], some ⟨S_IFREG, 1, some 0⟩, none,
   true, true, true⟩

/-- An entry none of whose facts are resolvable (e.g. a vanished path with a
non-UTF-8 name). -/
def entryBroken : Entry :=
  ⟨none, none, none, none, false, false, false⟩

/-! Claim theorems -/

/-- C3: with allow-hidden unset, an entry whose display name is exactly `.`
or starts with `.` has a false pre-inversion conjunction, regardless of the
other flags, the entry's metadata, or the reference time. -/
theorem hidden_name_rejected (st : St) (e : Entry) (file_name : Str)
    (hh : st.opt.hidden = false)
    (hd : starts_with file_name (Char.ofNat 46) = true) :
    testPre st e file_name = some false := by
  unfold testPre
  rcases hm : e.metadata with _ | file <;> rcases hc : cString e with _ | c <;>
    simp only [hm, hc]
  simp [conjA, andO, hh, hd]

/-- Witness for C3: the hidden file `.x` under the baseline configuration. -/
theorem hidden_name_rejected_witness :
    (⟨optBase, none⟩ : St).opt.hidden = false ∧
    starts_with ['.', 'x'] (Char.ofNat 46) = true ∧
    testPre ⟨optBase, none⟩ entryHidden ['.', 'x'] = some false :=
  ⟨rfl, by decide, hidden_name_rejected ⟨optBase, none⟩ entryHidden _ rfl (by decide)⟩

/-- The configuration `{ invert }` over the baseline. -/
def optInvert : Opt := { optBase with invert := true }

/-- The metadata of a plain regular file: mode `S_IFREG`, so neither
`S_ISUID` nor `S_ISGID` is set. -/
def metaPlain : FileMeta := ⟨S_IFREG, 1, some 0⟩

/-- A plain regular file named `f`. -/
def entryPlain : Entry :=
  ⟨some ['f'], some ['f'], some metaPlain, none, true, true, true⟩

/-- The metadata of a regular file with the set-group-id bit set and the
set-user-id bit clear. -/
def metaGid : FileMeta := ⟨S_IFREG ||| S_ISGID, 1, some 0⟩

/-- A regular file named `g` with `S_ISGID` set and `S_ISUID` clear. -/
def entryGid : Entry :=
  ⟨some ['g'], some ['g'], some metaGid, none, true, true, true⟩

/-- The configuration `{ set_uid_set }` over the baseline, with `entryPlain`
as the single input. -/
def optSuid : Opt := { optBase with set_uid_set := true, files := [⟨entryPlain, none⟩] }

/-- C1: the claim is right and the code is wrong.  The `-u` flag's own
documentation says it tests the set-user-id bit, but `Stest::test` never
reads `set_uid_set`: with `set_uid_set` enabled and `S_ISUID` clear the
whole run still accepts `entryPlain` (first three conjuncts), and it is the
`set_gid_set` flag that gates the `S_ISUID` check (last three conjuncts:
with only `set_gid_set` enabled, `entryGid` — whose `S_ISGID` bit is set —
is rejected because its `S_ISUID` bit is clear). -/
theorem suid_flag_ignored :
    optSuid.set_uid_set = true ∧
    s_isset S_ISUID metaPlain = false ∧
    run optSuid = Except.ok (some true) ∧
    s_isset S_ISGID metaGid = true ∧
    s_isset S_ISUID metaGid = false ∧
    testPre ⟨{ optBase with set_gid_set := true }, none⟩ entryGid ['g'] = some false :=
  ⟨rfl, by decide, rfl, by decide, by decide, by decide⟩

/-- C2 counterexample: `entryNested` has path string `d/.b` and final
component `.b`.  Under the claim (display name = final component) the
hidden-name rule would reject it, but the code's normal mode passes the
full path string to the evaluator and accepts it. -/
theorem display_name_cex :
    entryNested.fileName = some ['.', 'b'] ∧
    starts_with ['.', 'b'] (Char.ofNat 46) = true ∧
    optBase.hidden = false ∧
    fileVerdict ⟨optBase, none⟩ entryNested = some true ∧
    test ⟨optBase, none⟩ entryNested ['.', 'b'] = some false :=
  ⟨rfl, by decide, rfl, by decide, by decide⟩

/-- C2 (amended): in normal mode the display name handed to the evaluator
is the path's full string form (`to_str()`), not its final component; in
directory-contents mode an enumerated child's display name is its own
final path component. -/
theorem display_name_amended (st : St) (e e2 : Entry) (s f : Str)
    (hs : e.toStr = some s) (hf : e2.fileName = some f) :
    fileVerdict st e = test st e s ∧ dirChildVerdict st e2 = test st e2 f := by
  constructor
  · simp [fileVerdict, hs]
  · simp [dirChildVerdict, hf]

/-- Witness for C2 (amended) at `entryNested`. -/
theorem display_name_amended_witness :
    fileVerdict ⟨optBase, none⟩ entryNested
      = test ⟨optBase, none⟩ entryNested ['d', '/', '.', 'b'] ∧
    dirChildVerdict ⟨optBase, none⟩ entryNested
      = test ⟨optBase, none⟩ entryNested ['.', 'b'] :=
  display_name_amended ⟨optBase, none⟩ entryNested entryNested _ _ rfl rfl

/-- C4 counterexample: for `entryBroken` the display name cannot be derived
(`to_str()` is `None`), and with invert set its verdict is `false`, not
`true` as the claim states: `run_opts` returns `false` for such a candidate
before `Stest::test` — and hence inversion — is ever reached. -/
theorem name_failure_not_inverted_cex :
    optInvert.invert = true ∧
    entryBroken.toStr = none ∧
    fileVerdict ⟨optInvert, none⟩ entryBroken = some false ∧
    fileVerdict ⟨optInvert, none⟩ entryBroken ≠ some true :=
  ⟨rfl, rfl, by decide, by decide⟩

/-- C4 (amended): a metadata-read failure degrades the pre-inversion
conjunction to false without aborting, and inversion is still applied (the
verdict is exactly `invert`); but a display-name derivation failure
produces a final verdict of false directly, bypassing inversion. -/
theorem metadata_failure_inverted (st : St) (e e2 : Entry) (file_name : Str)
    (hm : e.metadata = none) (h2 : e2.toStr = none) :
    testPre st e file_name = some false ∧
    test st e file_name = some st.opt.invert ∧
    fileVerdict st e2 = some false := by
  have h1 : testPre st e file_name = some false := by
    unfold testPre
    rcases hc : cString e with _ | c <;> simp only [hm, hc]
  refine ⟨h1, ?_, ?_⟩
  · simp [test, h1]
  · simp [fileVerdict, h2]

/-- Witness for C4 (amended): `entryBroken` under the inverting
configuration — the metadata-failure verdict is `true` (`= invert`), the
name-failure verdict is `false`. -/
theorem metadata_failure_inverted_witness :
    testPre ⟨optInvert, none⟩ entryBroken [] = some false ∧
    test ⟨optInvert, none⟩ entryBroken [] = some true ∧
    fileVerdict ⟨optInvert, none⟩ entryBroken = some false :=
  metadata_failure_inverted ⟨optInvert, none⟩ entryBroken entryBroken [] rfl rfl

/-- C5: with neither time test enabled, flipping `invert` negates the
verdict of `Stest::test` exactly, for every entry, display name, and
resolved reference time. -/
theorem invert_negation (opt : Opt) (compare : Option Nat) (e : Entry)
    (file_name : Str)
    (hn : opt.newer_than = none) (ho : opt.older_than = none) :
    test ⟨{ opt with invert := true }, compare⟩ e file_name
      = (test ⟨{ opt with invert := false }, compare⟩ e file_name).map
          (fun b => !b) := by
  have hs : ∃ r, testPre ⟨opt, compare⟩ e file_name = some r := by
    rw [testPre_no_time ⟨opt, compare⟩ e file_name hn ho]
    rcases hm : e.metadata with _ | file <;> rcases hc : cString e with _ | c <;>
      simp only [hm, hc] <;> exact ⟨_, rfl⟩
  obtain ⟨r, hr⟩ := hs
  have h1 : testPre ⟨{ opt with invert := true }, compare⟩ e file_name = some r :=
    (testPre_invert_invariant opt true compare e file_name).trans hr
  have h0 : testPre ⟨{ opt with invert := false }, compare⟩ e file_name = some r :=
    (testPre_invert_invariant opt false compare e file_name).trans hr
  cases r <;> simp [test, h1, h0]

/-- Witness for C5 at `entryNested` under the baseline configuration. -/
theorem invert_negation_witness :
    test ⟨{ optBase with invert := true }, none⟩ entryNested ['d', '/', '.', 'b']
      = (test ⟨{ optBase with invert := false }, none⟩ entryNested
          ['d', '/', '.', 'b']).map (fun b => !b) :=
  invert_negation optBase none entryNested _ rfl rfl

/-- The per-input verdict function selected by `run_opts`'s branch on
`dir_contents`. -/
def itemF (st : St) (item : PathItem) : Option Bool :=
  if st.opt.dir_contents then test_dir st item else fileVerdict st item.entry

theorem foldVerdicts_congr (f g : α → Option Bool) (h : ∀ x, f x = g x)
    (xs : List α) (acc : Bool) :
    foldVerdicts f xs acc = foldVerdicts g xs acc := by
  have hfg : f = g := funext h
  rw [hfg]

theorem run_opts_itemF (st : St) :
    run_opts st = foldVerdicts (itemF st) st.opt.files false := by
  unfold run_opts
  cases hdc : st.opt.dir_contents
  · simp only [Bool.false_eq_true, if_false]
    exact foldVerdicts_congr _ _ (fun item => by simp [itemF, hdc]) _ _
  · simp only [if_true]
    exact foldVerdicts_congr _ _ (fun item => by simp [itemF, hdc]) _ _

/-- The baseline configuration with `entryPlain` (passes with no flags) and
`entryHidden` (rejected by the hidden-name rule) as inputs. -/
def opt6 : Opt := { optBase with files := [⟨entryPlain, none⟩, ⟨entryHidden, none⟩] }

/-- C6: when every candidate's evaluation completes, the overall outcome of
`run_opts` is the OR-fold of all post-inversion verdicts seeded `false`;
it is true iff at least one verdict is true; every candidate contributes a
verdict (the verdict list has one entry per input, no short-circuiting);
and an empty candidate list yields `false`. -/
theorem outcome_or_fold (st : St) (vs : List Bool)
    (h : collect (itemF st) st.opt.files = some vs) :
    run_opts st = some (vs.foldl reduce false) ∧
    (vs.foldl reduce false = vs.any id) ∧
    ((vs.foldl reduce false = true) ↔ ∃ v ∈ vs, v = true) ∧
    vs.length = st.opt.files.length ∧
    (st.opt.files = [] → run_opts st = some false) := by
  have hro : run_opts st
      = (collect (itemF st) st.opt.files).map (fun l => l.foldl reduce false) := by
    rw [run_opts_itemF, foldVerdicts_collect]
  refine ⟨?_, ?_, ?_, collect_length _ _ _ h, ?_⟩
  · rw [hro, h]
    rfl
  · rw [foldl_reduce_any]
    simp
  · rw [foldl_reduce_any]
    simp [List.any_eq_true]
  · intro hf
    rw [hro, hf]
    rfl

/-- Witness for C6: two candidates, verdicts `[true, false]`, outcome true. -/
theorem outcome_or_fold_witness :
    run_opts ⟨opt6, none⟩ = some ([true, false].foldl reduce false) ∧
    ([true, false].foldl reduce false = [true, false].any id) ∧
    (([true, false].foldl reduce false = true) ↔ ∃ v ∈ [true, false], v = true) ∧
    ([true, false] : List Bool).length = opt6.files.length ∧
    (opt6.files = [] → run_opts ⟨opt6, none⟩ = some false) :=
  outcome_or_fold ⟨opt6, none⟩ [true, false] (by decide)

/-- C7: if the configured newer-than reference (or, failing that, the
older-than reference) cannot be resolved, `run` propagates exactly that IO
error whatever the candidate list is — no candidate is evaluated — and
conversely, whenever reference resolution succeeds `run` returns `Ok`:
reference resolution is the only error `run` can propagate. -/
theorem ref_failure_fatal (opt : Opt) (p : Entry) (e : IOError)
    (hp : opt.newer_than = some p ∨ (opt.newer_than = none ∧ opt.older_than = some p))
    (he : refModified p = Except.error e) :
    (∀ fs, run { opt with files := fs } = Except.error e) ∧
    (∀ opt2 c, resolveCompare opt2 = Except.ok c →
      run opt2 = Except.ok (runStest ⟨opt2, c⟩)) := by
  constructor
  · intro fs
    have hrc : resolveCompare { opt with files := fs } = Except.error e := by
      rcases hp with h | ⟨h1, h2⟩
      · simp [resolveCompare, h, he, Except.map]
      · simp [resolveCompare, h1, h2, he, Except.map]
    simp [run, hrc, Except.map]
  · intro opt2 c h2
    simp [run, h2, Except.map]

/-- Witness for C7: a newer-than reference whose metadata is unreadable. -/
theorem ref_failure_fatal_witness :
    run { optBase with newer_than := some entryBroken, files := [⟨entryPlain, none⟩] }
      = Except.error IOError.metadataErr :=
  (ref_failure_fatal { optBase with newer_than := some entryBroken } entryBroken
    IOError.metadataErr (Or.inl rfl) rfl).1 [⟨entryPlain, none⟩]

/-- C8: with the reference time and the entry's modification time both
resolved, the newer-than conjunct is the strict comparison
`compare < modified` and the older-than conjunct the strict
`modified < compare`; at exact equality each enabled time test evaluates
to false. -/
theorem strict_time_comparisons (st : St) (file : FileMeta) (c m : Nat)
    (hc : st.compare = some c) (hm : file.modified = some m) :
    (st.opt.newer_than.isSome = true → newerConj st file = some (decide (c < m))) ∧
    (st.opt.older_than.isSome = true → olderConj st file = some (decide (m < c))) ∧
    (m = c →
      (st.opt.newer_than.isSome = true → newerConj st file = some false) ∧
      (st.opt.older_than.isSome = true → olderConj st file = some false)) := by
  refine ⟨?_, ?_, ?_⟩
  · intro h
    simp [newerConj, guardO, h, hc, hm]
  · intro h
    simp [olderConj, guardO, h, hc, hm]
  · intro hqm
    subst hqm
    constructor
    · intro h
      simp [newerConj, guardO, h, hc, hm]
    · intro h
      simp [olderConj, guardO, h, hc, hm]

/-- Both time tests enabled against the same reference entry. -/
def opt8 : Opt := { optBase with newer_than := some entryPlain, older_than := some entryPlain }

/-- A regular file whose modification time is exactly the reference time 5. -/
def meta5 : FileMeta := ⟨S_IFREG, 1, some 5⟩

/-- Witness for C8: modification time equal to the reference time fails
both enabled time tests. -/
theorem strict_time_comparisons_witness :
    newerConj ⟨opt8, some 5⟩ meta5 = some false ∧
    olderConj ⟨opt8, some 5⟩ meta5 = some false := by
  have h := strict_time_comparisons ⟨opt8, some 5⟩ meta5 5 5 rfl rfl
  exact ⟨(h.2.2 rfl).1 rfl, (h.2.2 rfl).2 rfl⟩

/-- C9: whenever a newer-than or older-than reference is configured and
`run`'s resolution step succeeds, the resolved `compare` is `Some`, so the
`compare.unwrap()` inside the two time conjuncts can never hit `None`:
given a readable modification time, neither conjunct panics. -/
theorem compare_some_when_configured (opt : Opt) (c : Option Nat)
    (hok : resolveCompare opt = Except.ok c)
    (hcfg : opt.newer_than.isSome = true ∨ opt.older_than.isSome = true) :
    c.isSome = true ∧
    (∀ (file : FileMeta) (m : Nat), file.modified = some m →
      newerConj ⟨opt, c⟩ file ≠ none ∧ olderConj ⟨opt, c⟩ file ≠ none) := by
  have hcs : ∃ t, c = some t := by
    rcases hn : opt.newer_than with _ | p
    · rcases ho : opt.older_than with _ | p
      · rw [hn] at hcfg
        rw [ho] at hcfg
        simp at hcfg
      · simp only [resolveCompare, hn, ho] at hok
        cases hr : refModified p <;> rw [hr] at hok <;> simp [Except.map] at hok
        exact ⟨_, hok.symm⟩
    · simp only [resolveCompare, hn] at hok
      cases hr : refModified p <;> rw [hr] at hok <;> simp [Except.map] at hok
      exact ⟨_, hok.symm⟩
  obtain ⟨t, rfl⟩ := hcs
  refine ⟨rfl, ?_⟩
  intro file m hm
  constructor
  · cases hflag : opt.newer_than.isSome <;> simp [newerConj, guardO, hflag, hm]
  · cases hflag : opt.older_than.isSome <;> simp [olderConj, guardO, hflag, hm]

/-- A newer-than-only configuration whose reference resolves to time 0. -/
def opt9 : Opt := { optBase with newer_than := some entryPlain }

/-- Witness for C9: with the newer-than reference resolved, the newer
conjunct of the evaluator cannot panic. -/
theorem compare_some_when_configured_witness :
    newerConj ⟨opt9, some 0⟩ metaPlain ≠ none :=
  ((compare_some_when_configured opt9 (some 0) rfl (Or.inl rfl)).2
    metaPlain 0 rfl).1

/-- C10: with both time tests configured, `run` resolves the single
reference time from the newer-than path (newer-than takes precedence), and
both conjuncts compare against that same timestamp, so no candidate's
pre-inversion conjunction can be true: a modification time cannot be both
strictly above and strictly below one instant. -/
theorem dual_reference_newer_precedence (opt : Opt) (p : Entry)
    (hn : opt.newer_than = some p) (ho : opt.older_than.isSome = true) :
    resolveCompare opt = (refModified p).map some ∧
    (∀ (c : Nat) (e : Entry) (file_name : Str),
      testPre ⟨opt, some c⟩ e file_name ≠ some true) := by
  constructor
  · simp [resolveCompare, hn]
  · intro c e file_name h
    rcases hmet : e.metadata with _ | file
    · simp [testPre, hmet] at h
    · rcases hcs : cString e with _ | cs
      · simp [testPre, hmet, hcs] at h
      · rw [testPre] at h
        simp only [hmet, hcs] at h
        cases hA : conjA ⟨opt, some c⟩ file e file_name <;> rw [hA] at h
        · simp [andO] at h
        · simp only [andO] at h
          rcases hm : file.modified with _ | m
          · simp [newerConj, guardO, hn, hm, andO] at h
          · simp only [newerConj, olderConj, guardO, hn, ho, hm,
              Option.isSome_some, if_true] at h
            by_cases hcm : c < m
            · have e1 : decide (c < m) = true := by simp [hcm]
              have e2 : decide (m < c) = false := by
                simp only [decide_eq_false_iff_not]
                omega
              rw [e1] at h
              simp only [andO] at h
              rw [e2] at h
              simp [andO] at h
            · have e1 : decide (c < m) = false := by simp [hcm]
              rw [e1] at h
              simp [andO] at h

/-- Witness for C10: with both references set, no entry's pre-inversion
conjunction is true. -/
theorem dual_reference_newer_precedence_witness :
    testPre ⟨opt8, some 5⟩ entryPlain ['f'] ≠ some true :=
  (dual_reference_newer_precedence opt8 entryPlain rfl rfl).2 5 entryPlain ['f']

end Stest
